import Mathlib

/-!
Verification of the tcp-stack core against its specification.

Shallow embedding conventions:
* Machine integers (u8, u16, u32) are modelled as Nat with explicit
  reductions modulo 2^8 / 2^16 / 2^32 exactly where the Rust code wraps
  (release-mode wrapping semantics for plain arithmetic, and the explicit
  wrapping_add / wrapping_sub calls).
* Byte buffers are List Nat together with byte-range hypotheses.
* Instants and Durations (std::time) are modelled as rationals; the
  functions that call Instant::now() take the current time as an
  explicit argument.
* Fallible parsing returns Option; a Rust panic or a non-terminating
  loop is modelled as a parse failure (none).
-/

set_option maxRecDepth 100000

/-! ## Sequence arithmetic (src/utils/seq.rs)

A SeqNumber is a u32; we model its value as a Nat below 2^32.
diff is u32 wrapping_sub; before is the half-range test of the source.
-/

/-- Model of SeqNumber::diff: self.0.wrapping_sub(other.0) for u32 values. -/
def SeqNumber.diff (a b : Nat) : Nat := (2 ^ 32 + a - b) % 2 ^ 32

/-- Model of SeqNumber::before: self.diff(other) > 0x8000_0000. -/
def SeqNumber.before (a b : Nat) : Prop := 2 ^ 31 < SeqNumber.diff a b

/-- Model of SeqNumber::after: other.before(self). -/
def SeqNumber.after (a b : Nat) : Prop := SeqNumber.before b a

instance (a b : Nat) : Decidable (SeqNumber.before a b) := Nat.decLt _ _

instance (a b : Nat) : Decidable (SeqNumber.after a b) := Nat.decLt _ _

/-! ## Checksum (src/utils/checksum.rs) -/

/-- Model of the carry-folding loop of calculate_checksum: while the high
half of the u32 accumulator is non-zero, add it back into the low half. -/
def checksumFold (sum : Nat) : Nat :=
  if sum < 65536 then sum else checksumFold (sum % 65536 + sum / 65536)
termination_by sum
decreasing_by
  simp_wf
  omega

/-- Model of the accumulation loop of calculate_checksum: big-endian 16-bit
words, a final odd byte is shifted left by 8; the u32 accumulator wraps. -/
def checksumAccum : List Nat → Nat → Nat
  | [], sum => sum
  | [b], sum => (sum + (b <<< 8)) % 2 ^ 32
  | b1 :: b2 :: rest, sum => checksumAccum rest ((sum + ((b1 <<< 8) ||| b2)) % 2 ^ 32)

/-- Model of calculate_checksum: fold the carries, then complement
(!sum as u16, where the folded sum is below 2^16). -/
def calculate_checksum (data : List Nat) : Nat :=
  65535 - checksumFold (checksumAccum data 0)

/-- Mathematical word sum of a byte span (no u32 truncation), used to
reason about checksumAccum. -/
def wordSum : List Nat → Nat
  | [] => 0
  | [b] => b * 256
  | b1 :: b2 :: rest => (b1 * 256 + b2) + wordSum rest

/-! ## Sliding window (src/flow_control/window.rs) -/

structure SlidingWindow where
  size : Nat
  left_edge : Nat
  right_edge : Nat
deriving DecidableEq

/-- Model of SlidingWindow::new. -/
def SlidingWindow.new (size : Nat) : SlidingWindow :=
  { size := size, left_edge := 0, right_edge := size }

/-- Model of SlidingWindow::advance; the + on SeqNumber is wrapping u32. -/
def SlidingWindow.advance (w : SlidingWindow) (ack : Nat) : SlidingWindow :=
  if SeqNumber.after ack w.left_edge then
    { size := w.size, left_edge := ack, right_edge := (ack + w.size) % 2 ^ 32 }
  else w

/-- Model of SlidingWindow::can_send. -/
def SlidingWindow.can_send (w : SlidingWindow) (seq len : Nat) : Prop :=
  ¬ SeqNumber.after ((seq + len) % 2 ^ 32) w.right_edge

/-- Model of SlidingWindow::available. -/
def SlidingWindow.available (w : SlidingWindow) (next_seq : Nat) : Nat :=
  if next_seq = w.right_edge ∨ SeqNumber.after next_seq w.right_edge then 0
  else SeqNumber.diff w.right_edge next_seq

/-- Model of SlidingWindow::set_size. -/
def SlidingWindow.set_size (w : SlidingWindow) (size : Nat) : SlidingWindow :=
  { size := size, left_edge := w.left_edge, right_edge := (w.left_edge + size) % 2 ^ 32 }

/-- Mutating calls a caller can make on a SlidingWindow after new. -/
inductive WindowOp where
  | advance (ack : Nat)
  | set_size (size : Nat)
deriving DecidableEq

/-- Arguments of an op are u32 values. -/
def WindowOp.validB : WindowOp → Bool
  | .advance a => decide (a < 2 ^ 32)
  | .set_size s => decide (s < 2 ^ 32)

/-- Run a sequence of window operations. -/
def applyWindowOps (w : SlidingWindow) (ops : List WindowOp) : SlidingWindow :=
  ops.foldl (fun w op =>
    match op with
    | .advance a => w.advance a
    | .set_size s => w.set_size s) w

/-- State invariant of windows built by new / advance / set_size: the
edges are u32 values and the right edge sits size bytes past the left
edge modulo 2^32. -/
def windowInv (w : SlidingWindow) : Prop :=
  w.left_edge < 2 ^ 32 ∧ w.size < 2 ^ 32 ∧
  w.right_edge = (w.left_edge + w.size) % 2 ^ 32

/-! ## Retransmission manager (src/reliability/retransmit.rs)

The HashMap from u32 keys to segments is modelled as an association list
(insert replaces the entry holding the same key); the Timer is modelled as
an optional absolute deadline (a rational), and functions that read
Instant::now() receive the current time as the explicit argument now.
-/

structure PendingSegment where
  seq : Nat
  len : Nat
  data : List Nat
  retransmit_count : Nat
  first_sent : ℚ
deriving DecidableEq

structure RetransmissionManager where
  pending : List (Nat × PendingSegment)
  timer : Option ℚ
  max_retries : Nat
deriving DecidableEq

/-- Model of RetransmissionManager::new. -/
def RetransmissionManager.new : RetransmissionManager :=
  { pending := [], timer := none, max_retries := 15 }

/-- HashMap::insert on an association list: replace the entry with an
equal key, otherwise append. -/
def mapInsert {α : Type} (l : List (Nat × α)) (k : Nat) (v : α) : List (Nat × α) :=
  if l.any (fun kv => kv.1 == k) then
    l.map (fun kv => if kv.1 = k then (k, v) else kv)
  else l ++ [(k, v)]

/-- Last byte of a pending segment: seg.seq.wrapping_add(seg.len) as u32. -/
def segmentEnd (seg : PendingSegment) : Nat := (seg.seq + seg.len) % 2 ^ 32

/-- Stand-in for f64::MAX, the start value of the fold computing the
minimum restart duration in acknowledge. -/
def f64Max : ℚ := 2 ^ 1024

/-- Model of RetransmissionManager::add_segment. -/
def RetransmissionManager.add_segment (m : RetransmissionManager)
    (segment : PendingSegment) (rto : ℚ) (now : ℚ) : RetransmissionManager :=
  let pending := mapInsert m.pending segment.seq segment
  { pending := pending
    timer := if pending.length = 1 then some (now + rto) else m.timer
    max_retries := m.max_retries }

/-- Model of RetransmissionManager::acknowledge.  The removal condition is
the source's plain u32 comparison ack_val >= seg_end; the returned list
holds the removed segments.  If segments remain, the timer restarts to the
minimum of (1.0 + elapsed * 2.0).min(60.0) over them, else it is
cancelled. -/
def RetransmissionManager.acknowledge (m : RetransmissionManager) (ack : Nat)
    (now : ℚ) : RetransmissionManager × List PendingSegment :=
  let acknowledged := (m.pending.filter fun kv => decide (segmentEnd kv.2 ≤ ack)).map fun kv => kv.2
  let remaining := m.pending.filter fun kv => ! decide (segmentEnd kv.2 ≤ ack)
  let timer : Option ℚ :=
    if remaining.isEmpty then none
    else some (now + (remaining.map fun kv =>
      min (1 + (now - kv.2.first_sent) * 2) 60).foldl min f64Max)
  ({ pending := remaining, timer := timer, max_retries := m.max_retries }, acknowledged)

/-! ## Reorder buffer (src/reliability/reorder.rs)

The BTreeMap is modelled as an association list with unique keys; its
iteration order does not matter for the properties below.
-/

structure ReorderBuffer where
  segments : List (Nat × List Nat)
  next_expected : Nat
  max_buffer_size : Nat
deriving DecidableEq

/-- Model of ReorderBuffer::new. -/
def ReorderBuffer.new : ReorderBuffer :=
  { segments := [], next_expected := 0, max_buffer_size := 1048576 }

/-- BTreeMap::get on an association list. -/
def mapLookup (l : List (Nat × List Nat)) (k : Nat) : Option (List Nat) :=
  (l.find? fun kv => kv.1 == k).map fun kv => kv.2

/-- BTreeMap::remove on an association list with unique keys. -/
def mapErase (l : List (Nat × List Nat)) (k : Nat) : List (Nat × List Nat) :=
  l.filter fun kv => kv.1 != k

/-- Model of ReorderBuffer::is_duplicate.  The overlap test is the
source's wrap-unaware u32 comparison: existing_end is a wrapping_add, and
seq_val + data.len() is a plain u32 addition (wrapping in release
builds). -/
def ReorderBuffer.is_duplicate (b : ReorderBuffer) (seq : Nat) (data : List Nat) : Bool :=
  if SeqNumber.before seq b.next_expected then true
  else b.segments.any fun kv =>
    decide (seq < (kv.1 + kv.2.length % 2 ^ 32) % 2 ^ 32) &&
    decide (kv.1 < (seq + data.length % 2 ^ 32) % 2 ^ 32)

/-- The extraction loop of ReorderBuffer::add: repeatedly remove the
segment keyed by next_expected, returning (segments, next_expected,
extracted runs).  The fuel starts at the map size; each iteration removes
one entry, so the fuel never runs out before the lookup fails. -/
def ReorderBuffer.drainFrom : Nat → List (Nat × List Nat) → Nat →
    List (Nat × List Nat) × Nat × List (Nat × List Nat)
  | 0, segs, next => (segs, next, [])
  | fuel + 1, segs, next =>
    match mapLookup segs next with
    | none => (segs, next, [])
    | some d =>
      let rest := ReorderBuffer.drainFrom fuel (mapErase segs next)
        ((next + d.length % 2 ^ 32) % 2 ^ 32)
      (rest.1, rest.2.1, (next, d) :: rest.2.2)

/-- Model of ReorderBuffer::add. -/
def ReorderBuffer.add (b : ReorderBuffer) (seq : Nat) (data : List Nat) :
    ReorderBuffer × List (Nat × List Nat) :=
  if b.is_duplicate seq data then (b, [])
  else if b.max_buffer_size ≤ b.segments.length * 1460 then (b, [])
  else
    let segs := mapInsert b.segments seq data
    let res := ReorderBuffer.drainFrom segs.length segs b.next_expected
    ({ segments := res.1, next_expected := res.2.1, max_buffer_size := b.max_buffer_size },
      res.2.2)

/-! ## NewReno congestion control (src/congestion/newreno.rs)

All fields are u32; the arithmetic of the source (+=, *, /) is u32
arithmetic, so every addition and multiplication is reduced modulo 2^32.
-/

inductive CongestionState where
  | slowStart
  | congestionAvoidance
  | fastRecovery
deriving DecidableEq

structure NewReno where
  cwnd : Nat
  ssthresh : Nat
  state : CongestionState
  dup_acks : Nat
  last_cwnd_reduction : Nat
  initial_mss : Nat
deriving DecidableEq

/-- Model of NewReno::new (ssthresh starts at u32::MAX). -/
def NewReno.new : NewReno :=
  { cwnd := 1460, ssthresh := 4294967295, state := .slowStart, dup_acks := 0,
    last_cwnd_reduction := 0, initial_mss := 1460 }

/-- Model of NewReno::on_ack. -/
def NewReno.on_ack (s : NewReno) (ack : Nat) (bytes_acked : Nat) : NewReno :=
  let s1 :=
    match s.state with
    | .slowStart =>
      let c := (s.cwnd + bytes_acked) % 2 ^ 32
      if s.ssthresh ≤ c then
        { s with state := .congestionAvoidance,
                 cwnd := (s.ssthresh + 2 * s.initial_mss % 2 ^ 32) % 2 ^ 32 }
      else { s with cwnd := c }
    | .congestionAvoidance =>
      { s with cwnd := (s.cwnd + s.initial_mss * bytes_acked % 2 ^ 32 / s.cwnd) % 2 ^ 32 }
    | .fastRecovery =>
      if SeqNumber.after ack s.last_cwnd_reduction then
        { s with state := .congestionAvoidance, cwnd := s.ssthresh }
      else s
  { s1 with dup_acks := 0 }

/-- Model of NewReno::enter_fast_retransmit. -/
def NewReno.enter_fast_retransmit (s : NewReno) : NewReno :=
  let th := max (s.cwnd / 2) (2 * s.initial_mss % 2 ^ 32)
  { s with ssthresh := th, cwnd := (th + 3 * s.initial_mss % 2 ^ 32) % 2 ^ 32,
           state := .fastRecovery, dup_acks := 3 }

/-- Model of NewReno::on_duplicate_ack. -/
def NewReno.on_duplicate_ack (s : NewReno) : NewReno :=
  let s1 := { s with dup_acks := (s.dup_acks + 1) % 2 ^ 32 }
  if s1.dup_acks = 3 then s1.enter_fast_retransmit
  else if 3 < s1.dup_acks ∧ s1.state = .fastRecovery then
    { s1 with cwnd := (s1.cwnd + s1.initial_mss) % 2 ^ 32 }
  else s1

/-- Model of NewReno::on_timeout. -/
def NewReno.on_timeout (s : NewReno) : NewReno :=
  { s with ssthresh := max (s.cwnd / 2) (2 * s.initial_mss % 2 ^ 32),
           cwnd := s.initial_mss, state := .slowStart, dup_acks := 0 }

/-- One observable call on a NewReno value. -/
inductive CongEvent where
  | ack (a : Nat) (bytes : Nat)
  | dup
  | timeout
deriving DecidableEq

/-- Dispatch one event. -/
def NewReno.step (s : NewReno) : CongEvent → NewReno
  | .ack a b => s.on_ack a b
  | .dup => s.on_duplicate_ack
  | .timeout => s.on_timeout

/-- Run a sequence of events. -/
def NewReno.run (s : NewReno) (evs : List CongEvent) : NewReno :=
  evs.foldl NewReno.step s

/-- The u32 additions of one step stay below 2^32 (no wrap-around). -/
def noOverflow (s : NewReno) : CongEvent → Bool
  | .ack _ b =>
    match s.state with
    | .slowStart => decide (s.cwnd + b < 2 ^ 32)
    | .congestionAvoidance =>
      decide (s.cwnd + s.initial_mss * b % 2 ^ 32 / s.cwnd < 2 ^ 32)
    | .fastRecovery => true
  | .dup =>
    if 3 < (s.dup_acks + 1) % 2 ^ 32 ∧ s.state = .fastRecovery then
      decide (s.cwnd + s.initial_mss < 2 ^ 32)
    else true
  | .timeout => true

/-- No step of the trace wraps a u32 addition. -/
def noOverflowTrace : NewReno → List CongEvent → Bool
  | _, [] => true
  | s, e :: evs => noOverflow s e && noOverflowTrace (s.step e) evs

/-- Invariant maintained by every overflow-free step after a timeout:
mss is the constant 1460, cwnd is a u32 of at least one mss, and ssthresh
lies in [2 mss, 2^31). -/
def NRInv (s : NewReno) : Prop :=
  s.initial_mss = 1460 ∧ s.cwnd < 2 ^ 32 ∧ s.initial_mss ≤ s.cwnd ∧
  2 * s.initial_mss ≤ s.ssthresh ∧ s.ssthresh < 2 ^ 31 ∧
  s.last_cwnd_reduction < 2 ^ 32

/-- Loss events of the source: a timeout, or the duplicate ACK whose
increment brings dup_acks to exactly three, entering fast retransmit. -/
def isLossEvent (s : NewReno) : CongEvent → Prop
  | .ack _ _ => False
  | .dup => (s.dup_acks + 1) % 2 ^ 32 = 3
  | .timeout => True

instance (s : NewReno) (e : CongEvent) : Decidable (isLossEvent s e) := by
  cases e <;> simp only [isLossEvent] <;> infer_instance

/-! ## TCP packet codec (src/packet/tcp.rs) -/

inductive TcpOption where
  | EndOfList
  | NoOperation
  | MaximumSegmentSize (mss : Nat)
  | WindowScale (scale : Nat)
  | SackPermitted
  | Sack (left : Nat) (right : Nat)
  | Timestamp (ts_val : Nat) (ts_ecr : Nat)
deriving DecidableEq

/-- Big-endian bytes of a u16 value. -/
def u16be (x : Nat) : List Nat := [x / 256 % 256, x % 256]

/-- Big-endian bytes of a u32 value. -/
def u32be (x : Nat) : List Nat :=
  [x / 16777216 % 256, x / 65536 % 256, x / 256 % 256, x % 256]

/-- Model of TcpOption::serialize. -/
def TcpOption.serialize : TcpOption → List Nat
  | .EndOfList => [0]
  | .NoOperation => [1]
  | .MaximumSegmentSize mss => [2, 4, mss / 256 % 256, mss % 256]
  | .WindowScale scale => [3, 3, scale]
  | .SackPermitted => [4, 2]
  | .Sack left right => 5 :: 10 :: (u32be left ++ u32be right)
  | .Timestamp ts_val ts_ecr => 8 :: 10 :: (u32be ts_val ++ u32be ts_ecr)

/-- Model of TcpOption::parse.  The source has no arm for kind 5 (SACK),
so kind 5 falls to the unknown-kind branch and is skipped as a
NoOperation. -/
def TcpOption.parse (data : List Nat) : Option (TcpOption × Nat) :=
  match data with
  | [] => none
  | kind :: _ =>
    if kind = 0 then some (.EndOfList, 1)
    else if kind = 1 then some (.NoOperation, 1)
    else if kind = 2 then
      if data.length < 4 then none
      else
        let len := data.getD 1 0
        if data.length < len then none
        else some (.MaximumSegmentSize (data.getD 2 0 * 256 + data.getD 3 0), len)
    else if kind = 3 then
      if data.length < 3 then none
      else some (.WindowScale (data.getD 2 0), 3)
    else if kind = 4 then
      if data.length < 2 then none
      else some (.SackPermitted, 2)
    else if kind = 8 then
      if data.length < 10 then none
      else some (.Timestamp
        (((data.getD 2 0 * 256 + data.getD 3 0) * 256 + data.getD 4 0) * 256 + data.getD 5 0)
        (((data.getD 6 0 * 256 + data.getD 7 0) * 256 + data.getD 8 0) * 256 + data.getD 9 0),
        10)
    else
      if data.length < 2 then none
      else
        let len := data.getD 1 0
        if len < 2 ∨ data.length < len then none
        else some (.NoOperation, len)

structure TcpHeader where
  src_port : Nat
  dst_port : Nat
  seq_num : Nat
  ack_num : Nat
  data_offset : Nat
  flags : Nat
  window_size : Nat
  checksum : Nat
  urgent_pointer : Nat
  options : List TcpOption
deriving DecidableEq

/-- Model of TcpHeader::header_len. -/
def TcpHeader.header_len (h : TcpHeader) : Nat := h.data_offset * 4

/-- Model of TcpHeader::serialize.  Note that the source packs the
data-offset/flags word as ((data_offset as u16) << 4) | flags, the
checksum bytes are written as zero, and the buffer is padded with zero
bytes up to header_len. -/
def TcpHeader.serialize (h : TcpHeader) : List Nat :=
  let base := u16be h.src_port ++ u16be h.dst_port ++ u32be h.seq_num ++ u32be h.ack_num
    ++ u16be ((h.data_offset <<< 4) ||| h.flags)
    ++ u16be h.window_size ++ u16be 0 ++ u16be h.urgent_pointer
    ++ (h.options.map TcpOption.serialize).flatten
  base ++ List.replicate (h.header_len - base.length) 0

/-- The option loop of TcpHeader::parse, with fuel.  Each terminating
iteration of the source loop consumes at least one byte; an iteration
consuming zero bytes loops forever in the source, which the fuel models
as a failure (none).  A failing TcpOption::parse or an EndOfList breaks
the loop keeping the options collected so far. -/
def parseOptionsLoop : Nat → List Nat → Option (List TcpOption)
  | _, [] => some []
  | 0, _ :: _ => none
  | fuel + 1, d =>
    match TcpOption.parse d with
    | none => some []
    | some (o, len) =>
      match o with
      | .EndOfList => some []
      | _ => (parseOptionsLoop fuel (d.drop len)).map fun os => o :: os

/-- Model of TcpHeader::parse.  The flags word is masked to its low six
bits and data_offset is the low four bits of the word shifted right by
four.  A header_len below 20 makes the source panic on the options slice;
this is modelled as a failure. -/
def TcpHeader.parse (data : List Nat) : Option (TcpHeader × List Nat) :=
  if data.length < 20 then none
  else
    let dof := data.getD 12 0 * 256 + data.getD 13 0
    let data_offset := (dof >>> 4) &&& 15
    let header_len := data_offset * 4
    if data.length < header_len then none
    else if header_len < 20 then none
    else
      let options_data := (data.take header_len).drop 20
      match parseOptionsLoop (options_data.length + 1) options_data with
      | none => none
      | some options =>
        some ({ src_port := data.getD 0 0 * 256 + data.getD 1 0
                dst_port := data.getD 2 0 * 256 + data.getD 3 0
                seq_num := ((data.getD 4 0 * 256 + data.getD 5 0) * 256 + data.getD 6 0) * 256
                  + data.getD 7 0
                ack_num := ((data.getD 8 0 * 256 + data.getD 9 0) * 256 + data.getD 10 0) * 256
                  + data.getD 11 0
                data_offset := data_offset
                flags := dof &&& 63
                window_size := data.getD 14 0 * 256 + data.getD 15 0
                checksum := data.getD 16 0 * 256 + data.getD 17 0
                urgent_pointer := data.getD 18 0 * 256 + data.getD 19 0
                options := options },
              data.drop header_len)

/-- Field ranges of the Rust option payloads (u16, u8, u32 fields). -/
def TcpOption.ValidFields : TcpOption → Prop
  | .MaximumSegmentSize mss => mss < 65536
  | .WindowScale scale => scale < 256
  | .Sack left right => left < 2 ^ 32 ∧ right < 2 ^ 32
  | .Timestamp ts_val ts_ecr => ts_val < 2 ^ 32 ∧ ts_ecr < 2 ^ 32
  | _ => True

/-- Options whose serialization the parser maps back to themselves:
everything except EndOfList (which stops the parse loop) and Sack (which
the parser has no arm for). -/
def TcpOption.roundtrippable : TcpOption → Prop
  | .EndOfList => False
  | .Sack _ _ => False
  | _ => True

/-- Field ranges of the Rust TcpHeader struct (u16, u32, u8 fields). -/
def TcpHeader.ValidFields (h : TcpHeader) : Prop :=
  h.src_port < 65536 ∧ h.dst_port < 65536 ∧ h.seq_num < 2 ^ 32 ∧ h.ack_num < 2 ^ 32 ∧
  h.data_offset < 256 ∧ h.flags < 256 ∧ h.window_size < 65536 ∧ h.checksum < 65536 ∧
  h.urgent_pointer < 65536 ∧ ∀ o ∈ h.options, o.ValidFields

instance (o : TcpOption) : Decidable o.ValidFields := by
  cases o <;> simp only [TcpOption.ValidFields] <;> infer_instance

instance (o : TcpOption) : Decidable o.roundtrippable := by
  cases o <;> simp only [TcpOption.roundtrippable] <;> infer_instance

instance (h : TcpHeader) : Decidable h.ValidFields := by
  unfold TcpHeader.ValidFields
  infer_instance

/-! ## Spec-side predicates (stated from the specification wording, for
comparing the code against the spec) and concrete example states. -/

/-- Modelled from the spec: cumulative-ACK coverage with wrap-aware
comparison — the segment end equals ack or lies before ack in the
half-range order. -/
def specAckCovers (ack endv : Nat) : Prop :=
  endv = ack ∨ SeqNumber.before endv ack

instance (ack endv : Nat) : Decidable (specAckCovers ack endv) := by
  unfold specAckCovers
  infer_instance

/-- Modelled from the spec: wrap-aware byte-range intersection — some byte
offset of the first range coincides with some byte offset of the second,
all positions taken modulo 2^32. -/
def specRangesIntersect (s1 l1 s2 l2 : Nat) : Prop :=
  ∃ i < l1, ∃ j < l2, (s1 + i) % 2 ^ 32 = (s2 + j) % 2 ^ 32

instance (s1 l1 s2 l2 : Nat) : Decidable (specRangesIntersect s1 l1 s2 l2) := by
  unfold specRangesIntersect
  infer_instance

/-- Header used to refute the unrestricted parse-serialize round trip:
the minimal header (no flags, no options, data_offset 5). -/
def tcpCexHeader : TcpHeader :=
  { src_port := 0, dst_port := 0, seq_num := 0, ack_num := 0, data_offset := 5,
    flags := 0, window_size := 0, checksum := 0, urgent_pointer := 0, options := [] }

/-- Header obtained by round-tripping tcpCexHeader: the ACK bit appears
because the serializer packs data_offset at bit 4 of the flags word. -/
def tcpCexParsedHeader : TcpHeader := { tcpCexHeader with flags := 16 }

/-- Header used as a witness for the amended round trip: URG+ACK flags
(48 = 0x30, matching data_offset 7 mod 4 = 3) and an 8-byte option list. -/
def tcpWitnessHeader : TcpHeader :=
  { src_port := 12345, dst_port := 80, seq_num := 1000, ack_num := 2000, data_offset := 7,
    flags := 48, window_size := 65535, checksum := 7777, urgent_pointer := 9,
    options := [.MaximumSegmentSize 1460, .SackPermitted, .NoOperation, .NoOperation] }

/-- A 20-byte wire header (data_offset 5, wire flags ACK) used as the C9
witness input. -/
def tcpFlagsWitnessData : List Nat :=
  [0, 0, 0, 0, 0, 0, 0, 0, 0, 0, 0, 0, 0, 80, 0, 0, 0, 0, 0, 0]

/-- The header tcpFlagsWitnessData parses to. -/
def tcpFlagsWitnessHeader : TcpHeader :=
  { src_port := 0, dst_port := 0, seq_num := 0, ack_num := 0, data_offset := 5,
    flags := 16, window_size := 0, checksum := 0, urgent_pointer := 0, options := [] }

/-- Pending segment [0, 1) used to refute wrap-aware acknowledge. -/
def rtCexSeg : PendingSegment :=
  { seq := 0, len := 1, data := [], retransmit_count := 0, first_sent := 0 }

/-- Manager holding only rtCexSeg. -/
def rtCexMgr : RetransmissionManager :=
  { pending := [(0, rtCexSeg)], timer := some 1, max_retries := 15 }

/-- Manager used as witness for the amended acknowledge theorem. -/
def rtWitnessMgr : RetransmissionManager :=
  { pending := [(100, { seq := 100, len := 50, data := [], retransmit_count := 0,
                        first_sent := 0 }),
                (150, { seq := 150, len := 50, data := [], retransmit_count := 0,
                        first_sent := 1 })],
    timer := some 3, max_retries := 15 }

/-- Sole pending segment of the add_segment counterexample state. -/
def addCexSeg1 : PendingSegment :=
  { seq := 100, len := 10, data := [], retransmit_count := 0, first_sent := 0 }

/-- Replacement segment with the same sequence number. -/
def addCexSeg2 : PendingSegment :=
  { seq := 100, len := 5, data := [], retransmit_count := 0, first_sent := 2 }

/-- Manager holding only addCexSeg1, timer cancelled. -/
def addCexMgr : RetransmissionManager :=
  { pending := [(100, addCexSeg1)], timer := none, max_retries := 15 }

/-- Manager used as witness for the amended add_segment theorem. -/
def addWitnessMgr : RetransmissionManager :=
  { pending := [(7, { seq := 7, len := 3, data := [], retransmit_count := 0,
                      first_sent := 0 }),
                (10, { seq := 10, len := 3, data := [], retransmit_count := 0,
                       first_sent := 0 })],
    timer := some 5, max_retries := 15 }

/-- Reorder buffer holding a segment that wraps around the top of the
sequence space: [0xFFFFFFFE, 0x00000002). -/
def rbCexBuffer : ReorderBuffer :=
  { segments := [(4294967294, [9, 9, 9, 9])], next_expected := 4294967294,
    max_buffer_size := 1048576 }

/-- Reorder buffer used as witness for the amended overlap-rejection
theorem. -/
def rbWitnessBuffer : ReorderBuffer :=
  { segments := [(10, [1, 1, 1, 1, 1])], next_expected := 0, max_buffer_size := 1048576 }

/-- NewReno state reached from new by on_timeout then one huge ACK whose
u32 addition wraps cwnd to zero. -/
def nrCexState : NewReno :=
  (NewReno.new.on_timeout).on_ack 0 4294965836

/-- Event trace used as witness for the amended NewReno invariant. -/
def nrWitnessTrace : List CongEvent :=
  [.ack 0 1460, .ack 0 2920, .dup, .dup, .dup, .dup, .ack 5 100, .timeout, .ack 9 10]

/-- State two duplicate ACKs in: the next duplicate ACK is the third and
enters fast retransmit, a loss event with no preceding timeout. -/
def nrLossState : NewReno := { NewReno.new with dup_acks := 2 }

/-- A trace whose u32 addition overflows, used to witness that the
ssthresh bound after a loss event needs no overflow restriction. -/
def nrOverflowTrace : List CongEvent := [CongEvent.ack 0 4294965836]

/-! # Theorems -/

/-! ## C3: transitivity of the half-range order -/

/-- C3 counterexample: before is not transitive on the wrap window —
0 before 0x60000000 and 0x60000000 before 0xC0000000, yet 0 is not
before 0xC0000000. -/
theorem seq_before_not_transitive :
    SeqNumber.before 0 1610612736 ∧ SeqNumber.before 1610612736 3221225472 ∧
    ¬ SeqNumber.before 0 3221225472 := by
  decide

/-- C3 (amended): for u32 sequence numbers, before is transitive whenever
the two forward gaps sum to less than 2^31, that is, the three points lie
inside one half-range window. -/
theorem seq_before_trans (a b c : Nat) (ha : a < 2 ^ 32) (hb : b < 2 ^ 32)
    (hc : c < 2 ^ 32) (hab : SeqNumber.before a b) (hbc : SeqNumber.before b c)
    (hspan : SeqNumber.diff b a + SeqNumber.diff c b < 2 ^ 31) :
    SeqNumber.before a c := by
  unfold SeqNumber.before SeqNumber.diff at *
  omega

/-- Witness for seq_before_trans at (a, b, c) = (4294967000, 100, 200),
a window that wraps through 0. -/
theorem seq_before_trans_witness :
    (4294967000 : Nat) < 2 ^ 32 ∧ (100 : Nat) < 2 ^ 32 ∧ (200 : Nat) < 2 ^ 32 ∧
    SeqNumber.before 4294967000 200 :=
  ⟨by decide, by decide, by decide,
    seq_before_trans 4294967000 100 200 (by decide) (by decide) (by decide)
      (by decide) (by decide) (by decide)⟩

/-! ## C6: diff / before / after against the spec formulas -/

/-- C6: diff is subtraction modulo 2^32; before holds exactly when the
forward distance (b - a) mod 2^32 lies in [1, 2^31); after is before with
the arguments swapped. -/
theorem seq_diff_before_after_spec (a b : Nat) (ha : a < 2 ^ 32) (hb : b < 2 ^ 32) :
    ((SeqNumber.diff a b : ℤ) = ((a : ℤ) - (b : ℤ)) % 2 ^ 32) ∧
    (SeqNumber.before a b ↔
      1 ≤ ((b : ℤ) - (a : ℤ)) % 2 ^ 32 ∧ ((b : ℤ) - (a : ℤ)) % 2 ^ 32 < 2 ^ 31) ∧
    (SeqNumber.after a b ↔ SeqNumber.before b a) := by
  refine ⟨?_, ?_, Iff.rfl⟩
  · unfold SeqNumber.diff
    omega
  · unfold SeqNumber.before SeqNumber.diff
    omega

/-- Witness for seq_diff_before_after_spec at (a, b) = (100, 200). -/
theorem seq_diff_before_after_spec_witness :
    (100 : Nat) < 2 ^ 32 ∧ (200 : Nat) < 2 ^ 32 ∧
    (((SeqNumber.diff 100 200 : ℤ) = ((100 : ℤ) - (200 : ℤ)) % 2 ^ 32) ∧
      (SeqNumber.before 100 200 ↔
        1 ≤ ((200 : ℤ) - (100 : ℤ)) % 2 ^ 32 ∧ ((200 : ℤ) - (100 : ℤ)) % 2 ^ 32 < 2 ^ 31) ∧
      (SeqNumber.after 100 200 ↔ SeqNumber.before 200 100)) :=
  ⟨by decide, by decide, seq_diff_before_after_spec 100 200 (by decide) (by decide)⟩

/-! ## C7: checksum patching -/

/-- Shifting a byte left by 8 is multiplication by 256. -/
theorem shiftLeft8_eq (b : Nat) : b <<< 8 = b * 256 := by
  simp [Nat.shiftLeft_eq]

/-- For a low byte below 256, the or of the checksum word is plain
addition. -/
theorem word_lor_eq (b1 b2 : Nat) (h2 : b2 < 256) :
    (b1 <<< 8) ||| b2 = b1 * 256 + b2 := by
  apply Nat.eq_of_testBit_eq
  intro i
  rw [Nat.testBit_lor, Nat.testBit_shiftLeft]
  have h₂ : b2 < 2 ^ 8 := h2
  have hr : b1 * 256 + b2 = 2 ^ 8 * b1 + b2 := by ring
  rw [hr, Nat.testBit_mul_pow_two_add b1 h₂ i]
  by_cases hi : i < 8
  · have h8 : ¬ (8 ≤ i) := by omega
    simp [hi, h8]
  · have h8 : 8 ≤ i := by omega
    have hb2 : Nat.testBit b2 i = false :=
      Nat.testBit_eq_false_of_lt
        (lt_of_lt_of_le h₂ (Nat.pow_le_pow_right (by norm_num) h8))
    simp [hi, h8, hb2]

/-- The wrapping accumulator equals the mathematical word sum modulo
2^32. -/
theorem checksumAccum_eq : ∀ (d : List Nat) (s : Nat), (∀ b ∈ d, b < 256) →
    s < 2 ^ 32 → checksumAccum d s = (s + wordSum d) % 2 ^ 32 := by
  intro d s
  induction d, s using checksumAccum.induct with
  | case1 s =>
    intro _ hs
    simp only [checksumAccum, wordSum]
    omega
  | case2 b s =>
    intro _ _
    simp [checksumAccum, wordSum, shiftLeft8_eq]
  | case3 b1 b2 rest s ih =>
    intro hb hs
    have hb2 : b2 < 256 := hb b2 (by simp)
    have hrest : ∀ b ∈ rest, b < 256 := fun b hbm => hb b (by simp [hbm])
    rw [checksumAccum, ih hrest (Nat.mod_lt _ (by norm_num)),
      word_lor_eq _ _ hb2, wordSum]
    omega

/-- The folded accumulator is below 2^16. -/
theorem checksumFold_lt (s : Nat) : checksumFold s < 65536 := by
  induction s using checksumFold.induct with
  | case1 s h =>
    rw [checksumFold]
    simpa [h] using h
  | case2 s h ih =>
    rw [checksumFold]
    simpa [h] using ih

/-- Folding never increases the accumulator. -/
theorem checksumFold_le (s : Nat) : checksumFold s ≤ s := by
  induction s using checksumFold.induct with
  | case1 s h =>
    rw [checksumFold]
    simp [h]
  | case2 s h ih =>
    rw [checksumFold]
    simp only [h, if_false]
    omega

/-- Folding preserves the residue modulo 65535. -/
theorem checksumFold_mod (s : Nat) : checksumFold s % 65535 = s % 65535 := by
  induction s using checksumFold.induct with
  | case1 s h =>
    rw [checksumFold]
    simp [h]
  | case2 s h ih =>
    rw [checksumFold]
    simp only [h, if_false]
    omega

/-- Only zero folds to zero. -/
theorem checksumFold_eq_zero (s : Nat) : checksumFold s = 0 → s = 0 := by
  induction s using checksumFold.induct with
  | case1 s h =>
    rw [checksumFold]
    simp [h]
  | case2 s h ih =>
    rw [checksumFold]
    simp only [h, if_false]
    intro hz
    have := ih hz
    omega

/-- A positive multiple of 65535 folds to exactly 65535. -/
theorem checksumFold_of_dvd (s : Nat) (h0 : s ≠ 0) (hd : 65535 ∣ s) :
    checksumFold s = 65535 := by
  induction s using checksumFold.induct with
  | case1 s h =>
    rw [checksumFold]
    simp only [h, if_true]
    omega
  | case2 s h ih =>
    rw [checksumFold]
    simp only [h, if_false]
    apply ih
    · omega
    · omega

/-- Patching a zeroed aligned 16-bit field with a value c adds c to the
word sum. -/
theorem wordSum_set : ∀ (d : List Nat) (i c : Nat), 2 ∣ i → i + 1 < d.length →
    d.getD i 0 = 0 → d.getD (i + 1) 0 = 0 → c < 65536 →
    wordSum ((d.set i (c / 256)).set (i + 1) (c % 256)) = wordSum d + c := by
  intro d
  induction d using wordSum.induct with
  | case1 =>
    intro i c _ h
    simp at h
  | case2 b =>
    intro i c _ h
    simp at h
  | case3 b1 b2 rest ih =>
    intro i c hdvd hlen hz1 hz2 hc
    rcases i with _ | i1
    · simp only [List.getD_cons_zero] at hz1
      simp only [List.getD_cons_succ, List.getD_cons_zero] at hz2
      subst hz1
      subst hz2
      simp only [List.set]
      rw [wordSum, wordSum]
      omega
    · rcases i1 with _ | k
      · exact absurd hdvd (by decide)
      · have hk : 2 ∣ k := by omega
        simp only [List.getD_cons_succ] at hz1 hz2
        simp only [List.length_cons] at hlen
        simp only [List.set]
        rw [wordSum, wordSum, ih k c hk (by omega) hz1 hz2 hc]
        omega

/-- Core carry argument: adding the complement of the folded accumulator
to the accumulator lands on a positive multiple of 65535 below 2^32, so
the verification fold returns 0xFFFF. -/
theorem fold_patch_key (A : Nat) (hA : A < 2 ^ 32) :
    checksumFold ((A + (65535 - checksumFold A)) % 2 ^ 32) = 65535 := by
  have hFlt : checksumFold A < 65536 := checksumFold_lt A
  have hFle : checksumFold A ≤ A := checksumFold_le A
  have hmod : checksumFold A % 65535 = A % 65535 := checksumFold_mod A
  have hdvd : 65535 ∣ (A - checksumFold A) := by omega
  have key : A - checksumFold A ≤ 4294901760 := by
    by_contra hgt
    push_neg at hgt
    have hF0 : checksumFold A = 0 := by omega
    have hA0 : A = 0 := checksumFold_eq_zero A hF0
    omega
  have hsum : A + (65535 - checksumFold A) = (A - checksumFold A) + 65535 := by
    omega
  have hlt : (A - checksumFold A) + 65535 < 2 ^ 32 := by omega
  rw [hsum, Nat.mod_eq_of_lt hlt]
  apply checksumFold_of_dvd
  · omega
  · omega

/-- C7: for every byte span with an aligned zeroed 16-bit checksum field,
calculate_checksum returns a fully folded 16-bit value, and patching it
into the field makes the folded one's-complement sum of the whole span
equal 0xFFFF. -/
theorem calculate_checksum_patch (d : List Nat) (i : Nat)
    (hb : ∀ b ∈ d, b < 256) (hal : 2 ∣ i) (hlen : i + 1 < d.length)
    (hz1 : d.getD i 0 = 0) (hz2 : d.getD (i + 1) 0 = 0) :
    calculate_checksum d < 65536 ∧
    checksumFold (checksumAccum
      ((d.set i (calculate_checksum d / 256)).set (i + 1) (calculate_checksum d % 256)) 0)
      = 65535 := by
  have hck : calculate_checksum d < 65536 := by
    unfold calculate_checksum
    omega
  refine ⟨hck, ?_⟩
  have hbp : ∀ b ∈ (d.set i (calculate_checksum d / 256)).set (i + 1)
      (calculate_checksum d % 256), b < 256 := by
    intro b hbm
    rcases List.mem_or_eq_of_mem_set hbm with hbm1 | rfl
    · rcases List.mem_or_eq_of_mem_set hbm1 with hbm2 | rfl
      · exact hb b hbm2
      · omega
    · omega
  rw [checksumAccum_eq _ 0 hbp (by norm_num), Nat.zero_add,
    wordSum_set d i (calculate_checksum d) hal hlen hz1 hz2 hck]
  have hc_eq : calculate_checksum d = 65535 - checksumFold (wordSum d % 2 ^ 32) := by
    unfold calculate_checksum
    rw [checksumAccum_eq d 0 hb (by norm_num), Nat.zero_add]
  have hrw : (wordSum d + calculate_checksum d) % 2 ^ 32 =
      (wordSum d % 2 ^ 32 + calculate_checksum d) % 2 ^ 32 := by
    omega
  rw [hrw, hc_eq]
  exact fold_patch_key (wordSum d % 2 ^ 32) (Nat.mod_lt _ (by norm_num))

/-- Witness for calculate_checksum_patch on the odd-length span
[0, 0, 69, 255, 17] with the checksum field at offset 0. -/
theorem calculate_checksum_patch_witness :
    (∀ b ∈ [0, 0, 69, 255, 17], b < 256) ∧ 2 ∣ 0 ∧ 0 + 1 < ([0, 0, 69, 255, 17] : List Nat).length ∧
    ([0, 0, 69, 255, 17] : List Nat).getD 0 0 = 0 ∧ ([0, 0, 69, 255, 17] : List Nat).getD 1 0 = 0 ∧
    (calculate_checksum [0, 0, 69, 255, 17] < 65536 ∧
      checksumFold (checksumAccum
        (([0, 0, 69, 255, 17].set 0 (calculate_checksum [0, 0, 69, 255, 17] / 256)).set 1
          (calculate_checksum [0, 0, 69, 255, 17] % 256)) 0) = 65535) :=
  ⟨by decide, by decide, by decide, by decide, by decide,
    calculate_checksum_patch [0, 0, 69, 255, 17] 0 (by decide) (by decide) (by decide)
      (by decide) (by decide)⟩

/-! ## C8: sliding window available -/

/-- New windows satisfy the invariant. -/
theorem windowInv_new (size : Nat) (h : size < 2 ^ 32) :
    windowInv (SlidingWindow.new size) := by
  refine ⟨?_, ?_, ?_⟩
  · show (0 : Nat) < 2 ^ 32
    norm_num
  · exact h
  · show size = (0 + size) % 2 ^ 32
    omega

/-- Each operation preserves the invariant. -/
theorem windowInv_step (w : SlidingWindow) (op : WindowOp) (hw : windowInv w)
    (hop : op.validB = true) :
    windowInv (match op with
      | .advance a => w.advance a
      | .set_size s => w.set_size s) := by
  cases op with
  | advance a =>
    simp only [WindowOp.validB, decide_eq_true_iff] at hop
    unfold SlidingWindow.advance
    by_cases h : SeqNumber.after a w.left_edge
    · simp only [h, if_true]
      exact ⟨hop, hw.2.1, rfl⟩
    · simp only [h, if_false]
      exact hw
  | set_size s =>
    simp only [WindowOp.validB, decide_eq_true_iff] at hop
    exact ⟨hw.1, hop, rfl⟩

/-- Any sequence of valid operations preserves the invariant. -/
theorem windowInv_apply (ops : List WindowOp) (w : SlidingWindow) (hw : windowInv w)
    (hops : ∀ op ∈ ops, op.validB = true) : windowInv (applyWindowOps w ops) := by
  induction ops generalizing w with
  | nil => exact hw
  | cons op rest ih =>
    have h1 := windowInv_step w op hw (hops op (by simp))
    have h2 : ∀ o ∈ rest, o.validB = true := fun o ho => hops o (by simp [ho])
    cases op with
    | advance a => exact ih (w.advance a) h1 h2
    | set_size s => exact ih (w.set_size s) h1 h2

/-- C8 counterexample: a fresh window of size 0xFFFFFFFF with next equal
to its left edge has next in [left_edge, right_edge], yet available(next)
plus the offset of next is 0, not the size. -/
theorem window_available_not_size :
    SeqNumber.diff 0 (SlidingWindow.new 4294967295).left_edge ≤
      (SlidingWindow.new 4294967295).size ∧
    (SlidingWindow.new 4294967295).available 0 +
      SeqNumber.diff 0 (SlidingWindow.new 4294967295).left_edge ≠
      (SlidingWindow.new 4294967295).size := by
  decide

/-- C8 (amended): for every window reached from new(size) by valid
advance and set_size calls whose current size is at most 2^31, and every
next in [left_edge, right_edge], available(next) plus the offset of next
from the left edge equals the size. -/
theorem window_available_inv (size : Nat) (ops : List WindowOp) (next : Nat)
    (hsz : size < 2 ^ 32) (hops : ∀ op ∈ ops, op.validB = true)
    (hnext : next < 2 ^ 32)
    (hhalf : (applyWindowOps (SlidingWindow.new size) ops).size ≤ 2 ^ 31)
    (hin : SeqNumber.diff next (applyWindowOps (SlidingWindow.new size) ops).left_edge ≤
      (applyWindowOps (SlidingWindow.new size) ops).size) :
    (applyWindowOps (SlidingWindow.new size) ops).available next +
      SeqNumber.diff next (applyWindowOps (SlidingWindow.new size) ops).left_edge =
      (applyWindowOps (SlidingWindow.new size) ops).size := by
  obtain ⟨hL, hS, hR⟩ := windowInv_apply ops _ (windowInv_new size hsz) hops
  set w := applyWindowOps (SlidingWindow.new size) ops
  unfold SlidingWindow.available
  unfold SeqNumber.after SeqNumber.before SeqNumber.diff at *
  by_cases hc : next = w.right_edge ∨
      2 ^ 31 < (2 ^ 32 + w.right_edge - next) % 2 ^ 32
  · simp only [hc, if_true]
    rcases hc with hc | hc
    · omega
    · omega
  · simp only [hc, if_false]
    push_neg at hc
    omega

/-- Witness for window_available_inv: size 1000, advance to 500, resize
to 2000, then query next = 600. -/
theorem window_available_inv_witness :
    ((1000 : Nat) < 2 ^ 32 ∧
      (∀ op ∈ [WindowOp.advance 500, WindowOp.set_size 2000], op.validB = true) ∧
      (600 : Nat) < 2 ^ 32 ∧
      (applyWindowOps (SlidingWindow.new 1000)
        [WindowOp.advance 500, WindowOp.set_size 2000]).size ≤ 2 ^ 31) ∧
    (applyWindowOps (SlidingWindow.new 1000)
        [WindowOp.advance 500, WindowOp.set_size 2000]).available 600 +
      SeqNumber.diff 600 (applyWindowOps (SlidingWindow.new 1000)
        [WindowOp.advance 500, WindowOp.set_size 2000]).left_edge =
      (applyWindowOps (SlidingWindow.new 1000)
        [WindowOp.advance 500, WindowOp.set_size 2000]).size :=
  ⟨⟨by decide, by decide, by decide, by decide⟩,
    window_available_inv 1000 [WindowOp.advance 500, WindowOp.set_size 2000] 600
      (by decide) (by decide) (by decide) (by decide) (by decide)⟩

/-! ## C2: acknowledge semantics -/

/-- C2 counterexample: acknowledge removes a segment whose end (1) is not
covered by ack = 0x90000000 under the wrap-aware order — the source
compares plain u32 values instead. -/
theorem acknowledge_not_wrap_aware :
    rtCexSeg ∈ (rtCexMgr.acknowledge 2415919104 0).2 ∧
    ¬ specAckCovers 2415919104 (segmentEnd rtCexSeg) := by
  decide

/-- C2 (amended): acknowledge(ack) removes and returns exactly the pending
segments whose wrapped end seq + len is at most ack as a plain u32
comparison; when every pending end is at most ack this way, the pending
set is left empty and the timer is cancelled. -/
theorem acknowledge_u32_cumulative (m : RetransmissionManager) (ack : Nat) (now : ℚ) :
    (∀ seg : PendingSegment, seg ∈ (m.acknowledge ack now).2 ↔
      ∃ kv ∈ m.pending, kv.2 = seg ∧ segmentEnd seg ≤ ack) ∧
    (∀ kv, kv ∈ (m.acknowledge ack now).1.pending ↔
      kv ∈ m.pending ∧ ¬ segmentEnd kv.2 ≤ ack) ∧
    ((∀ kv ∈ m.pending, segmentEnd kv.2 ≤ ack) →
      (m.acknowledge ack now).1.pending = [] ∧ (m.acknowledge ack now).1.timer = none) := by
  refine ⟨?_, ?_, ?_⟩
  · intro seg
    simp only [RetransmissionManager.acknowledge, List.mem_map, List.mem_filter,
      decide_eq_true_eq]
    constructor
    · rintro ⟨kv, ⟨hkv, hend⟩, rfl⟩
      exact ⟨kv, hkv, rfl, hend⟩
    · rintro ⟨kv, hkv, rfl, hend⟩
      exact ⟨kv, ⟨hkv, hend⟩, rfl⟩
  · intro kv
    simp only [RetransmissionManager.acknowledge, List.mem_filter,
      Bool.not_eq_eq_eq_not, Bool.not_true, decide_eq_false_iff_not]
  · intro hall
    have hrem : (m.pending.filter fun kv => ! decide (segmentEnd kv.2 ≤ ack)) = [] := by
      rw [List.filter_eq_nil_iff]
      intro kv hkv
      simp [hall kv hkv]
    constructor
    · show (m.pending.filter fun kv => ! decide (segmentEnd kv.2 ≤ ack)) = []
      exact hrem
    · show (if (m.pending.filter fun kv => ! decide (segmentEnd kv.2 ≤ ack)).isEmpty
          then none else _) = none
      rw [hrem]
      rfl

/-- Witness for acknowledge_u32_cumulative: a manager with two pending
segments ending at 150 and 200, acknowledged by 250. -/
theorem acknowledge_u32_cumulative_witness :
    (∀ kv ∈ rtWitnessMgr.pending, segmentEnd kv.2 ≤ 250) ∧
    (rtWitnessMgr.acknowledge 250 0).1.pending = [] ∧
    (rtWitnessMgr.acknowledge 250 0).1.timer = none :=
  ⟨by decide, (acknowledge_u32_cumulative rtWitnessMgr 250 0).2.2 (by decide)⟩

/-! ## C10: add_segment and the retransmit timer -/

/-- C10 counterexample: inserting a segment whose seq equals the sole
pending segment's seq leaves the count at one, and the source then starts
the timer (pending.len() == 1 holds after the replacing insert), so the
timer is not left untouched. -/
theorem add_segment_restarts_timer_on_replace :
    (addCexMgr.add_segment addCexSeg2 3 0).pending.length = addCexMgr.pending.length ∧
    (addCexMgr.add_segment addCexSeg2 3 0).timer ≠ addCexMgr.timer := by
  decide

/-- C10 (amended): add_segment starts the timer exactly when the pending
count after insertion is one — including when a replacing insert leaves
the count at one — and leaves it untouched otherwise; inserting a segment
whose seq is already pending replaces the entry and leaves the count
unchanged. -/
theorem add_segment_timer_iff (m : RetransmissionManager) (seg : PendingSegment)
    (rto now : ℚ) :
    ((m.add_segment seg rto now).pending.length = 1 →
      (m.add_segment seg rto now).timer = some (now + rto)) ∧
    ((m.add_segment seg rto now).pending.length ≠ 1 →
      (m.add_segment seg rto now).timer = m.timer) ∧
    ((∃ kv ∈ m.pending, kv.1 = seg.seq) →
      (m.add_segment seg rto now).pending.length = m.pending.length) := by
  refine ⟨?_, ?_, ?_⟩
  · intro h
    simp only [RetransmissionManager.add_segment] at h ⊢
    simp [h]
  · intro h
    simp only [RetransmissionManager.add_segment] at h ⊢
    simp [h]
  · rintro ⟨kv, hkv, hk⟩
    have hany : m.pending.any (fun kv => kv.1 == seg.seq) = true := by
      rw [List.any_eq_true]
      exact ⟨kv, hkv, by simp [hk]⟩
    simp [RetransmissionManager.add_segment, mapInsert, hany]

/-- Witness for add_segment_timer_iff: replacing the segment keyed 7 in a
two-segment manager keeps the count at two and the timer unchanged. -/
theorem add_segment_timer_iff_witness :
    (∃ kv ∈ addWitnessMgr.pending,
      kv.1 = ({ seq := 7, len := 9, data := [], retransmit_count := 0,
                first_sent := 0 } : PendingSegment).seq) ∧
    (addWitnessMgr.add_segment
      { seq := 7, len := 9, data := [], retransmit_count := 0, first_sent := 0 }
      2 1).pending.length = addWitnessMgr.pending.length ∧
    (addWitnessMgr.add_segment
      { seq := 7, len := 9, data := [], retransmit_count := 0, first_sent := 0 }
      2 1).timer = addWitnessMgr.timer :=
  ⟨by decide,
    (add_segment_timer_iff addWitnessMgr
      { seq := 7, len := 9, data := [], retransmit_count := 0, first_sent := 0 }
      2 1).2.2 (by decide),
    (add_segment_timer_iff addWitnessMgr
      { seq := 7, len := 9, data := [], retransmit_count := 0, first_sent := 0 }
      2 1).2.1 (by decide)⟩

/-! ## C4: reorder-buffer overlap rejection -/

/-- C4 counterexample: the held segment [0xFFFFFFFE, 0x2) wraps and its
byte range intersects the new segment [0, 1) wrap-aware, yet add inserts,
returns a non-empty ready list and changes the state — the source's
overlap test uses wrap-unaware u32 comparisons. -/
theorem reorder_add_misses_wrapped_overlap :
    specRangesIntersect 0 1 4294967294 4 ∧
    (rbCexBuffer.add 0 [7]).2 ≠ [] ∧ (rbCexBuffer.add 0 [7]).1 ≠ rbCexBuffer := by
  decide

/-- C4 (amended): add(seq, data) inserts nothing, returns the empty list
and leaves the state unchanged whenever the wrap-unaware u32 interval
test of the source detects an overlap with some held segment. -/
theorem reorder_add_rejects_overlap (b : ReorderBuffer) (seq : Nat) (data : List Nat)
    (h : ∃ kv ∈ b.segments, seq < (kv.1 + kv.2.length % 2 ^ 32) % 2 ^ 32 ∧
      kv.1 < (seq + data.length % 2 ^ 32) % 2 ^ 32) :
    b.add seq data = (b, []) := by
  have hdup : b.is_duplicate seq data = true := by
    unfold ReorderBuffer.is_duplicate
    by_cases hbefore : SeqNumber.before seq b.next_expected
    · simp [hbefore]
    · simp only [hbefore, if_false, List.any_eq_true]
      obtain ⟨kv, hkv, h1, h2⟩ := h
      refine ⟨kv, hkv, ?_⟩
      simp only [Bool.and_eq_true, decide_eq_true_eq]
      omega
  unfold ReorderBuffer.add
  simp [hdup]

/-- Witness for reorder_add_rejects_overlap: held [10, 15) rejects the
overlapping add of [12, 14). -/
theorem reorder_add_rejects_overlap_witness :
    (∃ kv ∈ rbWitnessBuffer.segments,
      12 < (kv.1 + kv.2.length % 2 ^ 32) % 2 ^ 32 ∧
      kv.1 < (12 + ([2, 2] : List Nat).length % 2 ^ 32) % 2 ^ 32) ∧
    rbWitnessBuffer.add 12 [2, 2] = (rbWitnessBuffer, []) :=
  ⟨by decide, reorder_add_rejects_overlap rbWitnessBuffer 12 [2, 2] (by decide)⟩

/-! ## C5: NewReno invariants -/

/-- C5 counterexample: from new, on_timeout followed by one on_ack whose
u32 addition overflows leaves cwnd = 0, below initial_mss. -/
theorem newreno_cwnd_below_mss :
    nrCexState.cwnd < nrCexState.initial_mss := by
  decide

/-- on_timeout establishes the invariant from any u32 state with the
default mss. -/
theorem NRInv_on_timeout (s : NewReno) (hm : s.initial_mss = 1460)
    (hc : s.cwnd < 2 ^ 32) (hl : s.last_cwnd_reduction < 2 ^ 32) :
    NRInv s.on_timeout := by
  unfold NRInv NewReno.on_timeout
  try dsimp only
  omega

/-- Each overflow-free step preserves the invariant. -/
theorem NRInv_step (s : NewReno) (e : CongEvent) (hI : NRInv s)
    (hov : noOverflow s e = true) : NRInv (s.step e) := by
  obtain ⟨hm, hclt, hcge, hsge, hslt, hl⟩ := hI
  cases e with
  | ack a b =>
    cases hst : s.state with
    | slowStart =>
      simp only [noOverflow, hst, decide_eq_true_eq] at hov
      simp only [NewReno.step, NewReno.on_ack, hst]
      split
      · unfold NRInv
        try dsimp only
        omega
      · unfold NRInv
        try dsimp only
        omega
    | congestionAvoidance =>
      simp only [noOverflow, hst, decide_eq_true_eq] at hov
      simp only [NewReno.step, NewReno.on_ack, hst]
      unfold NRInv
      try dsimp only
      generalize s.initial_mss * b % 2 ^ 32 / s.cwnd = X at hov ⊢
      omega
    | fastRecovery =>
      simp only [NewReno.step, NewReno.on_ack, hst]
      split
      · unfold NRInv
        try dsimp only
        omega
      · unfold NRInv
        try dsimp only
        omega
  | dup =>
    by_cases h3 : (s.dup_acks + 1) % 2 ^ 32 = 3
    · simp only [NewReno.step, NewReno.on_duplicate_ack, NewReno.enter_fast_retransmit]
      try dsimp only
      rw [if_pos h3]
      unfold NRInv
      try dsimp only
      omega
    · by_cases hfr : 3 < (s.dup_acks + 1) % 2 ^ 32 ∧ s.state = CongestionState.fastRecovery
      · have hov2 : s.cwnd + s.initial_mss < 2 ^ 32 := by
          simp only [noOverflow, if_pos hfr, decide_eq_true_eq] at hov
          exact hov
        simp only [NewReno.step, NewReno.on_duplicate_ack]
        try dsimp only
        rw [if_neg h3, if_pos hfr]
        unfold NRInv
        try dsimp only
        omega
      · simp only [NewReno.step, NewReno.on_duplicate_ack]
        try dsimp only
        rw [if_neg h3, if_neg hfr]
        unfold NRInv
        try dsimp only
        omega
  | timeout =>
    simp only [NewReno.step, NewReno.on_timeout]
    unfold NRInv
    try dsimp only
    omega

/-- Overflow-free runs preserve the invariant. -/
theorem NRInv_run (s : NewReno) (evs : List CongEvent) (hI : NRInv s)
    (hov : noOverflowTrace s evs = true) : NRInv (s.run evs) := by
  induction evs generalizing s with
  | nil => exact hI
  | cons e rest ih =>
    simp only [noOverflowTrace, Bool.and_eq_true] at hov
    exact ih (s.step e) (NRInv_step s e hI hov.1) hov.2

/-- Each step preserves the default mss and the ssthresh lower bound,
with no overflow hypothesis: ssthresh is only ever rewritten to
max(cwnd/2, 2 mss). -/
theorem newreno_ssthresh_step (s : NewReno) (e : CongEvent)
    (hm : s.initial_mss = 1460) (hs : 2 * s.initial_mss ≤ s.ssthresh) :
    (s.step e).initial_mss = 1460 ∧ 2 * (s.step e).initial_mss ≤ (s.step e).ssthresh := by
  cases e with
  | ack a b =>
    cases hst : s.state with
    | slowStart =>
      simp only [NewReno.step, NewReno.on_ack, hst]
      split
      · try dsimp only
        omega
      · try dsimp only
        omega
    | congestionAvoidance =>
      simp only [NewReno.step, NewReno.on_ack, hst]
      try dsimp only
      omega
    | fastRecovery =>
      simp only [NewReno.step, NewReno.on_ack, hst]
      split
      · try dsimp only
        omega
      · try dsimp only
        omega
  | dup =>
    by_cases h3 : (s.dup_acks + 1) % 2 ^ 32 = 3
    · simp only [NewReno.step, NewReno.on_duplicate_ack, NewReno.enter_fast_retransmit]
      try dsimp only
      rw [if_pos h3]
      try dsimp only
      omega
    · by_cases hfr : 3 < (s.dup_acks + 1) % 2 ^ 32 ∧ s.state = CongestionState.fastRecovery
      · simp only [NewReno.step, NewReno.on_duplicate_ack]
        try dsimp only
        rw [if_neg h3, if_pos hfr]
        try dsimp only
        omega
      · simp only [NewReno.step, NewReno.on_duplicate_ack]
        try dsimp only
        rw [if_neg h3, if_neg hfr]
        try dsimp only
        omega
  | timeout =>
    simp only [NewReno.step, NewReno.on_timeout]
    try dsimp only
    omega

/-- Any run whatsoever preserves the ssthresh lower bound. -/
theorem newreno_ssthresh_run (s : NewReno) (evs : List CongEvent)
    (hm : s.initial_mss = 1460) (hs : 2 * s.initial_mss ≤ s.ssthresh) :
    (s.run evs).initial_mss = 1460 ∧ 2 * (s.run evs).initial_mss ≤ (s.run evs).ssthresh := by
  induction evs generalizing s with
  | nil => exact ⟨hm, hs⟩
  | cons e rest ih =>
    obtain ⟨hm2, hs2⟩ := newreno_ssthresh_step s e hm hs
    exact ih (s.step e) hm2 hs2

/-- A loss event from any state establishes the ssthresh lower bound. -/
theorem newreno_ssthresh_loss (s : NewReno) (e : CongEvent)
    (hm : s.initial_mss = 1460) (hl : isLossEvent s e) :
    (s.step e).initial_mss = 1460 ∧ 2 * (s.step e).initial_mss ≤ (s.step e).ssthresh := by
  cases e with
  | ack a b => exact hl.elim
  | timeout =>
    simp only [NewReno.step, NewReno.on_timeout]
    try dsimp only
    omega
  | dup =>
    have h3 : (s.dup_acks + 1) % 2 ^ 32 = 3 := hl
    simp only [NewReno.step, NewReno.on_duplicate_ack, NewReno.enter_fast_retransmit]
    try dsimp only
    rw [if_pos h3]
    try dsimp only
    omega

/-- C5 (amended): in every state reached from an on_timeout call by any
further on_ack / on_duplicate_ack / on_timeout calls none of whose u32
additions overflows, cwnd stays at least initial_mss; and in every state
reached after any loss event (the third duplicate ACK entering fast
retransmit, or a timeout) by any further calls whatsoever - overflowing
or not, with or without a preceding timeout - ssthresh stays at least
twice initial_mss. -/
theorem newreno_loss_invariants :
    (∀ (s0 : NewReno) (evs : List CongEvent), s0.initial_mss = 1460 →
      s0.cwnd < 2 ^ 32 → s0.last_cwnd_reduction < 2 ^ 32 →
      noOverflowTrace s0.on_timeout evs = true →
      (s0.on_timeout.run evs).initial_mss ≤ (s0.on_timeout.run evs).cwnd) ∧
    (∀ (s : NewReno) (e : CongEvent) (evs : List CongEvent), s.initial_mss = 1460 →
      isLossEvent s e →
      2 * ((s.step e).run evs).initial_mss ≤ ((s.step e).run evs).ssthresh) := by
  constructor
  · intro s0 evs hm hc hl hov
    exact (NRInv_run s0.on_timeout evs (NRInv_on_timeout s0 hm hc hl) hov).2.2.1
  · intro s e evs hm hl
    obtain ⟨hm2, hs2⟩ := newreno_ssthresh_loss s e hm hl
    exact (newreno_ssthresh_run (s.step e) evs hm2 hs2).2

/-- Witness for newreno_loss_invariants: the cwnd part on a nine-event
overflow-free trace after a timeout, and the ssthresh part on a third
duplicate ACK with no preceding timeout followed by an overflowing ACK. -/
theorem newreno_loss_invariants_witness :
    (NewReno.new.initial_mss = 1460 ∧ NewReno.new.cwnd < 2 ^ 32 ∧
      NewReno.new.last_cwnd_reduction < 2 ^ 32 ∧
      noOverflowTrace NewReno.new.on_timeout nrWitnessTrace = true ∧
      nrLossState.initial_mss = 1460 ∧ isLossEvent nrLossState CongEvent.dup) ∧
    ((NewReno.new.on_timeout.run nrWitnessTrace).initial_mss ≤
        (NewReno.new.on_timeout.run nrWitnessTrace).cwnd) ∧
    (2 * ((nrLossState.step CongEvent.dup).run nrOverflowTrace).initial_mss ≤
        ((nrLossState.step CongEvent.dup).run nrOverflowTrace).ssthresh) :=
  ⟨⟨by decide, by decide, by decide, by decide, by decide, by decide⟩,
    newreno_loss_invariants.1 NewReno.new nrWitnessTrace (by decide) (by decide)
      (by decide) (by decide),
    newreno_loss_invariants.2 nrLossState CongEvent.dup nrOverflowTrace (by decide)
      (by decide)⟩

/-! ## C9: parsed flags have ECE and CWR clear -/

/-- Values below 64 have bits 6 and 7 clear. -/
theorem flags_low6 : ∀ f < 64, f &&& 64 = 0 ∧ f &&& 128 = 0 := by
  decide

/-- C9: every successfully parsed TCP header has the ECE (0x40) and CWR
(0x80) flag bits clear — the parser masks the flags word to its low six
bits. -/
theorem tcp_parse_flags_masked (data : List Nat) (h : TcpHeader) (payload : List Nat)
    (hp : TcpHeader.parse data = some (h, payload)) :
    h.flags &&& 64 = 0 ∧ h.flags &&& 128 = 0 := by
  rw [TcpHeader.parse] at hp
  split at hp
  · exact absurd hp (by simp)
  · dsimp only at hp
    split at hp
    · exact absurd hp (by simp)
    · split at hp
      · exact absurd hp (by simp)
      · split at hp
        · exact absurd hp (by simp)
        · simp only [Option.some.injEq, Prod.mk.injEq] at hp
          obtain ⟨hh, hpl⟩ := hp
          rw [← hh]
          try dsimp only
          refine flags_low6 _ ?_
          have hle : (data.getD 12 0 * 256 + data.getD 13 0) &&& 63 ≤ 63 :=
            Nat.and_le_right
          omega

/-- Witness for tcp_parse_flags_masked on a concrete 20-byte header whose
wire flags are ACK. -/
theorem tcp_parse_flags_masked_witness :
    TcpHeader.parse tcpFlagsWitnessData = some (tcpFlagsWitnessHeader, []) ∧
    (tcpFlagsWitnessHeader.flags &&& 64 = 0 ∧ tcpFlagsWitnessHeader.flags &&& 128 = 0) :=
  ⟨by decide,
    tcp_parse_flags_masked tcpFlagsWitnessData tcpFlagsWitnessHeader [] (by decide)⟩

/-! ## C1: parse after serialize -/

/-- C1 counterexample: the minimal header (all flags clear, no options,
data_offset 5) round-trips to a header with the ACK flag set, because the
serializer packs data_offset at bit 4 of the flags word. -/
theorem tcp_roundtrip_flags_corrupted :
    TcpHeader.parse (TcpHeader.serialize tcpCexHeader) = some (tcpCexParsedHeader, []) ∧
    tcpCexParsedHeader.flags ≠ tcpCexHeader.flags := by
  decide


/-- For data_offset at most 15 and six-bit flags whose high two bits
mirror the low two bits of data_offset, the packed data-offset/flags word
round-trips through the parser extraction. -/
theorem dof_pack_roundtrip : ∀ d < 16, ∀ f < 64, f / 16 = d % 4 →
    ((d <<< 4) ||| f) < 256 ∧ (((d <<< 4) ||| f) >>> 4) &&& 15 = d ∧
    ((d <<< 4) ||| f) &&& 63 = f := by
  decide

/-- Serialized options are never empty. -/
theorem tcpOption_serialize_pos (o : TcpOption) : 1 ≤ o.serialize.length := by
  cases o <;> simp [TcpOption.serialize]

/-- Parsing a serialized round-trippable option with any tail returns
the option and its serialized length. -/
theorem tcpOption_parse_serialize (o : TcpOption) (t : List Nat) (hv : o.ValidFields)
    (hrt : o.roundtrippable) :
    TcpOption.parse (o.serialize ++ t) = some (o, o.serialize.length) := by
  cases o with
  | EndOfList => exact hrt.elim
  | Sack l r => exact hrt.elim
  | NoOperation => simp [TcpOption.serialize, TcpOption.parse]
  | SackPermitted => simp [TcpOption.parse, TcpOption.serialize, List.getD]
  | WindowScale s => simp [TcpOption.parse, TcpOption.serialize, List.getD]
  | MaximumSegmentSize m =>
    have hm : m < 65536 := hv
    have hval : m / 256 % 256 * 256 + m % 256 = m := by omega
    simp [TcpOption.parse, TcpOption.serialize, List.getD, hval]
  | Timestamp v e =>
    obtain ⟨hv1, hv2⟩ := hv
    have hval1 : ((v / 16777216 % 256 * 256 + v / 65536 % 256) * 256 + v / 256 % 256) * 256
        + v % 256 = v := by omega
    have hval2 : ((e / 16777216 % 256 * 256 + e / 65536 % 256) * 256 + e / 256 % 256) * 256
        + e % 256 = e := by omega
    simp [TcpOption.parse, TcpOption.serialize, List.getD, u32be, hval1, hval2]

/-- One unfolding of the option loop on a non-empty byte list. -/
theorem parseOptionsLoop_cons (fuel : Nat) (b : Nat) (bs : List Nat) :
    parseOptionsLoop (fuel + 1) (b :: bs) =
      match TcpOption.parse (b :: bs) with
      | none => some []
      | some (o, len) =>
        match o with
        | .EndOfList => some []
        | _ => (parseOptionsLoop fuel ((b :: bs).drop len)).map fun os => o :: os := rfl

/-- The option loop maps serialized round-trippable options followed
by zero padding back to the option list. -/
theorem parseOptionsLoop_roundtrip : ∀ (os : List TcpOption) (pad fuel : Nat),
    (∀ o ∈ os, o.ValidFields) → (∀ o ∈ os, o.roundtrippable) →
    (os.map TcpOption.serialize).flatten.length + pad < fuel + 1 →
    parseOptionsLoop fuel ((os.map TcpOption.serialize).flatten ++ List.replicate pad 0)
      = some os := by
  intro os
  induction os with
  | nil =>
    intro pad fuel _ _ hfuel
    simp only [List.map_nil, List.flatten_nil, List.nil_append]
    simp only [List.map_nil, List.flatten_nil, List.length_nil] at hfuel
    cases pad with
    | zero => cases fuel <;> rfl
    | succ p =>
      cases fuel with
      | zero => exact absurd hfuel (by omega)
      | succ f =>
        rw [List.replicate_succ, parseOptionsLoop_cons]
        simp [TcpOption.parse]
  | cons o rest ih =>
    intro pad fuel hv hrt hfuel
    have hvo : o.ValidFields := hv o (by simp)
    have hrto : o.roundtrippable := hrt o (by simp)
    have hvr : ∀ x ∈ rest, x.ValidFields := fun x hx => hv x (by simp [hx])
    have hrr : ∀ x ∈ rest, x.roundtrippable := fun x hx => hrt x (by simp [hx])
    simp only [List.map_cons, List.flatten_cons, List.length_append] at hfuel ⊢
    rw [List.append_assoc]
    cases fuel with
    | zero =>
      have hpos := tcpOption_serialize_pos o
      exact absurd hfuel (by omega)
    | succ f =>
      have hparse := tcpOption_parse_serialize o
        ((rest.map TcpOption.serialize).flatten ++ List.replicate pad 0) hvo hrto
      have hstep : parseOptionsLoop (f + 1)
          (o.serialize ++ ((rest.map TcpOption.serialize).flatten ++ List.replicate pad 0)) =
          (parseOptionsLoop f
            ((rest.map TcpOption.serialize).flatten ++ List.replicate pad 0)).map
            (fun os => o :: os) := by
        obtain ⟨b, bs, hsb⟩ : ∃ b bs, o.serialize = b :: bs := by
          cases o <;> exact ⟨_, _, rfl⟩
        rw [hsb, List.cons_append, parseOptionsLoop_cons, ← List.cons_append, ← hsb, hparse]
        cases o with
        | EndOfList => exact hrto.elim
        | Sack l r => exact hrto.elim
        | NoOperation => simp [TcpOption.serialize]
        | SackPermitted => simp [TcpOption.serialize]
        | WindowScale s => simp [TcpOption.serialize]
        | MaximumSegmentSize m => simp [TcpOption.serialize]
        | Timestamp v e => simp [TcpOption.serialize, u32be]
      rw [hstep, ih pad f hvr hrr (by have := tcpOption_serialize_pos o; omega)]
      rfl

/-- Dropping the fixed 20-byte header prefix. -/
theorem drop20_cons (a0 a1 a2 a3 a4 a5 a6 a7 a8 a9 a10 a11 a12 a13 a14 a15 a16 a17
    a18 a19 : Nat) (t : List Nat) :
    List.drop 20 (a0 :: a1 :: a2 :: a3 :: a4 :: a5 :: a6 :: a7 :: a8 :: a9 :: a10 ::
      a11 :: a12 :: a13 :: a14 :: a15 :: a16 :: a17 :: a18 :: a19 :: t) = t := rfl

/-- C1 (amended): parse after serialize returns the header with a
zeroed checksum and an empty payload, for headers whose flags fit in six
bits and mirror the low bits of data_offset, whose options contain no END
and no SACK, and whose data_offset is consistent with the option bytes. -/
theorem tcp_parse_serialize_roundtrip (h : TcpHeader)
    (hv : h.ValidFields) (hflags : h.flags < 64)
    (hcouple : h.flags / 16 = h.data_offset % 4) (hdo : h.data_offset ≤ 15)
    (hopts : ∀ o ∈ h.options, o.roundtrippable)
    (hfit : 20 + (h.options.map TcpOption.serialize).flatten.length ≤ 4 * h.data_offset) :
    TcpHeader.parse h.serialize = some ({ h with checksum := 0 }, []) := by
  obtain ⟨h1, h2, h3, h4, h5, h6, h7, h8, h9, h10⟩ := hv
  obtain ⟨hWlt, hWd, hWf⟩ :=
    dof_pack_roundtrip h.data_offset (by omega) h.flags hflags hcouple
  set W := (h.data_offset <<< 4) ||| h.flags with hW
  set OB := (h.options.map TcpOption.serialize).flatten with hOB
  set pad := h.data_offset * 4 - (OB.length + 20) with hpad
  have hser : h.serialize =
      [h.src_port / 256 % 256, h.src_port % 256,
       h.dst_port / 256 % 256, h.dst_port % 256,
       h.seq_num / 16777216 % 256, h.seq_num / 65536 % 256,
       h.seq_num / 256 % 256, h.seq_num % 256,
       h.ack_num / 16777216 % 256, h.ack_num / 65536 % 256,
       h.ack_num / 256 % 256, h.ack_num % 256,
       W / 256 % 256, W % 256,
       h.window_size / 256 % 256, h.window_size % 256,
       0, 0,
       h.urgent_pointer / 256 % 256, h.urgent_pointer % 256] ++
      (OB ++ List.replicate pad 0) := by
    rw [TcpHeader.serialize]
    simp [u16be, u32be, TcpHeader.header_len]
    have hOBlen : OB.length = (List.map (List.length ∘ TcpOption.serialize) h.options).sum := by
      rw [hOB, List.length_flatten, List.map_map]
    omega
  have hlenL : h.serialize.length = h.data_offset * 4 := by
    rw [hser]
    simp only [List.length_append, List.length_cons, List.length_nil, List.length_replicate]
    omega
  rw [hser, TcpHeader.parse]
  rw [if_neg (by simp)]
  simp [List.getD]
  have hWv : W / 256 % 256 * 256 + W % 256 = W := by omega
  rw [hWv, hWd, hWf]
  have hsp : h.src_port / 256 % 256 * 256 + h.src_port % 256 = h.src_port := by omega
  have hdp : h.dst_port / 256 % 256 * 256 + h.dst_port % 256 = h.dst_port := by omega
  have hws : h.window_size / 256 % 256 * 256 + h.window_size % 256 = h.window_size := by
    omega
  have hup : h.urgent_pointer / 256 % 256 * 256 + h.urgent_pointer % 256 =
      h.urgent_pointer := by omega
  have hsq : ((h.seq_num / 16777216 % 256 * 256 + h.seq_num / 65536 % 256) * 256 +
      h.seq_num / 256 % 256) * 256 + h.seq_num % 256 = h.seq_num := by omega
  have hak : ((h.ack_num / 16777216 % 256 * 256 + h.ack_num / 65536 % 256) * 256 +
      h.ack_num / 256 % 256) * 256 + h.ack_num % 256 = h.ack_num := by omega
  rw [hsp, hdp, hws, hup, hsq, hak]
  refine ⟨by omega, by omega, ?_⟩
  rw [List.take_of_length_le (by
    simp only [List.length_cons, List.length_append, List.length_replicate]
    omega)]
  rw [drop20_cons]
  rw [List.drop_eq_nil_of_le ?hle]
  case hle =>
    simp only [List.length_cons, List.length_append, List.length_replicate]
    omega
  rw [hOB]
  rw [parseOptionsLoop_roundtrip h.options pad _ h10 hopts ?hfl]
  case hfl =>
    have hOBl : OB.length = ((h.options.map TcpOption.serialize).flatten).length := by
      rw [hOB]
    omega

/-- Witness for tcp_parse_serialize_roundtrip on a header with URG+ACK
flags, data_offset 7 and options MSS, SACK-permitted, NOP, NOP. -/
theorem tcp_parse_serialize_roundtrip_witness :
    (tcpWitnessHeader.ValidFields ∧ tcpWitnessHeader.flags < 64 ∧
      tcpWitnessHeader.flags / 16 = tcpWitnessHeader.data_offset % 4 ∧
      tcpWitnessHeader.data_offset ≤ 15 ∧
      (∀ o ∈ tcpWitnessHeader.options, o.roundtrippable) ∧
      20 + (tcpWitnessHeader.options.map TcpOption.serialize).flatten.length ≤
        4 * tcpWitnessHeader.data_offset) ∧
    TcpHeader.parse tcpWitnessHeader.serialize =
      some ({ tcpWitnessHeader with checksum := 0 }, []) :=
  ⟨⟨by decide, by decide, by decide, by decide, by decide, by decide⟩,
    tcp_parse_serialize_roundtrip tcpWitnessHeader (by decide) (by decide) (by decide)
      (by decide) (by decide) (by decide)⟩
